import Mathlib

/-!
Verification of the `Overlay` registry from `react-dynamic-overlay`
(`src/index.tsx`).

The source is a single TypeScript class `Overlay` holding three instance
fields: a private counter `iid` (initialised to `-1`), an ordered list
`components : [number, ReactNode][]`, and a list `subscribers : (() => void)[]`.
We embed it shallowly:

* the content type `ReactNode` is an opaque type parameter `α`;
* a subscriber callback is an opaque token of type parameter `τ` — the only
  observable behaviour of `this.subscribers.forEach(fn => fn())` is which
  callbacks fire and in which order, so every mutation returns, besides the
  new state, the list of tokens notified, in invocation order;
* JS numbers used as ids are embedded as `Int` (the spec puts overflow out of
  scope);
* JS array primitives are embedded by their ECMAScript semantics:
  `[...a, x]` is `a ++ [x]`, `a.filter(p)` is `List.filter`,
  `a.slice(0, -1)` is `take (length - 1)` (a negative end index is clamped to
  `max (length + end) 0`), `a.push(x)` appends and returns the new length, and
  `a.splice(start)` with a single argument removes every element from index
  `start` to the end, leaving the prefix `take start`.
-/

namespace Overlay

/-- The instance state of one `Overlay` object: the private incremental id
`iid`, the components list associating each component with its id, and the
registered subscriber callbacks (as opaque tokens) in registration order. -/
structure State (α τ : Type) where
  iid : Int
  components : List (Int × α)
  subscribers : List τ
deriving DecidableEq, Repr

/-- The state of a freshly constructed `Overlay`: `iid = -1`, empty
components list, no subscribers. -/
def initial {α τ : Type} : State α τ :=
  { iid := -1, components := [], subscribers := [] }

/-- Embedding of `this.components.slice(0, -1)`: ECMAScript `slice` clamps the
negative end index `-1` to `max (length - 1) 0`, so the result is the list
without its last element (and `[]` for the empty list — no error). Natural
subtraction gives exactly this clamping. -/
def jsSliceInit {β : Type} (l : List β) : List β :=
  l.take (l.length - 1)

/-- Embedding of `pushLast`: append the component with the sentinel id `-1`
and notify every subscriber (`this.subscribers.forEach(fn => fn())`). -/
def pushLast {α τ : Type} (c : α) (st : State α τ) : State α τ × List τ :=
  ({ st with components := st.components ++ [(-1, c)] }, st.subscribers)

/-- Embedding of `pushWithId`: `const id = ++this.iid` increments the counter
and uses the new value, the factory is invoked once on it, the pair is
appended, and every subscriber is notified. -/
def pushWithId {α τ : Type} (f : Int → α) (st : State α τ) : State α τ × List τ :=
  ({ st with
      iid := st.iid + 1
      components := st.components ++ [(st.iid + 1, f (st.iid + 1))] },
   st.subscribers)

/-- Embedding of `dismissById`: keep exactly the components whose id differs
from `id` (`this.components.filter(it => it[0] != id)`), notify everyone. -/
def dismissById {α τ : Type} (id : Int) (st : State α τ) : State α τ × List τ :=
  ({ st with components := st.components.filter (fun it => it.1 != id) },
   st.subscribers)

/-- Embedding of `dismissLast`: `this.components.slice(0, -1)`, notify
everyone. -/
def dismissLast {α τ : Type} (st : State α τ) : State α τ × List τ :=
  ({ st with components := jsSliceInit st.components }, st.subscribers)

/-- Embedding of `dismissAll`: replace the components list by `[]`, notify
everyone. -/
def dismissAll {α τ : Type} (st : State α τ) : State α τ × List τ :=
  ({ st with components := [] }, st.subscribers)

/-- The argument of the public `push`: the source dispatches on
`typeof component`, choosing `pushWithId` for a function and `pushLast`
otherwise. We embed the two runtime shapes as a sum. -/
inductive PushArg (α : Type) where
  | value (c : α)
  | factory (f : Int → α)

/-- Embedding of the public `push`: dispatch on the runtime shape of the
argument. -/
def push {α τ : Type} (arg : PushArg α) (st : State α τ) : State α τ × List τ :=
  match arg with
  | .factory f => pushWithId f st
  | .value c => pushLast c st

/-- Embedding of the public `dismiss`: the source dispatches on `typeof id`,
choosing `dismissById` when a number was passed and `dismissLast` otherwise.
The optional argument is embedded as `Option Int`. -/
def dismiss {α τ : Type} (id : Option Int) (st : State α τ) : State α τ × List τ :=
  match id with
  | some i => dismissById i st
  | none => dismissLast st

/-- Embedding of the `Container` mount effect: `this.subscribers.push(cb)`
appends the callback and returns the new length, which the effect stores as
`subscription`. -/
def containerMount {α τ : Type} (cb : τ) (st : State α τ) : State α τ × Nat :=
  ({ st with subscribers := st.subscribers ++ [cb] }, st.subscribers.length + 1)

/-- Embedding of the `Container` unmount cleanup:
`this.subscribers.splice(subscription - 1)`. ECMAScript `splice` called with a
single argument deletes every element from that index to the end of the
array, so the surviving subscribers are `take (subscription - 1)`. -/
def containerUnmount {α τ : Type} (subscription : Nat) (st : State α τ) : State α τ :=
  { st with subscribers := st.subscribers.take (subscription - 1) }

/-- One mutation operation of the registry surface, for reasoning about
arbitrary operation sequences. The two shapes of `push` and the two shapes of
`dismiss` appear as four constructors, plus `dismissAll`. -/
inductive Op (α : Type) where
  | pushValue (c : α)
  | pushFactory (f : Int → α)
  | dismissById (id : Int)
  | dismissLast
  | dismissAll

/-- Apply one mutation operation, returning the new state and the list of
subscriber tokens notified, in invocation order. -/
def applyOp {α τ : Type} (op : Op α) (st : State α τ) : State α τ × List τ :=
  match op with
  | .pushValue c => pushLast c st
  | .pushFactory f => pushWithId f st
  | .dismissById id => dismissById id st
  | .dismissLast => dismissLast st
  | .dismissAll => dismissAll st

/-- Run a sequence of mutation operations, also collecting the identity tags
generated by the `pushFactory` operations, in order of assignment. -/
def runIds {α τ : Type} : List (Op α) → State α τ → State α τ × List Int
  | [], st => (st, [])
  | op :: ops, st =>
    let st' := (applyOp op st).1
    let rest := runIds ops st'
    match op with
    | .pushFactory _ => (rest.1, (st.iid + 1) :: rest.2)
    | _ => rest

/-- Embedding of `pushWithId` with a factory that may throw, following the JS
evaluation order of the method body: `const id = ++this.iid` executes first,
so the counter is incremented before the factory runs; the assignment
`this.components = [...this.components, [id, component(id)]]` evaluates
`component(id)` in its right-hand side, so a throw aborts the assignment and
the subsequent `forEach`, leaving the components list unchanged and notifying
nobody, while the exception propagates to the caller. -/
def pushWithIdTry {α τ ε : Type} (f : Int → Except ε α) (st : State α τ) :
    Except ε Unit × State α τ × List τ :=
  match f (st.iid + 1) with
  | .error e => (.error e, { st with iid := st.iid + 1 }, [])
  | .ok c =>
    (.ok (), { st with
        iid := st.iid + 1
        components := st.components ++ [(st.iid + 1, c)] },
     st.subscribers)

/-- A world of two independently constructed `Overlay` instances. The source
class keeps `iid`, `components` and `subscribers` as instance fields and has
no static or module-level mutable state (the default export is itself just
one more instance), so two `new Overlay()` objects are embedded as two
independent `State` values. -/
structure World (α τ : Type) where
  reg1 : State α τ
  reg2 : State α τ

/-- Apply a mutation operation to the first registry of a world, returning
the new world and the notified subscriber tokens. -/
def applyToFirst {α τ : Type} (op : Op α) (w : World α τ) : World α τ × List τ :=
  let r := applyOp op w.reg1
  ({ reg1 := r.1, reg2 := w.reg2 }, r.2)

/-! ## Helper lemmas -/

theorem jsSliceInit_eq_dropLast {β : Type} (l : List β) :
    jsSliceInit l = l.dropLast := by
  rw [jsSliceInit, ← List.dropLast_eq_take]

theorem applyOp_notified {α τ : Type} (op : Op α) (st : State α τ) :
    (applyOp op st).2 = st.subscribers := by
  cases op <;> rfl

theorem applyOp_iid_le {α τ : Type} (op : Op α) (st : State α τ) :
    st.iid ≤ (applyOp op st).1.iid := by
  cases op <;>
    simp [applyOp, pushLast, pushWithId, dismissById, dismissLast, dismissAll]

theorem runIds_cons_fst {α τ : Type} (op : Op α) (ops : List (Op α)) (st : State α τ) :
    (runIds (op :: ops) st).1 = (runIds ops (applyOp op st).1).1 := by
  cases op <;> rfl

theorem runIds_append_fst {α τ : Type} (l1 l2 : List (Op α)) (st : State α τ) :
    (runIds (l1 ++ l2) st).1 = (runIds l2 (runIds l1 st).1).1 := by
  induction l1 generalizing st with
  | nil => rfl
  | cons op l1 ih => rw [List.cons_append, runIds_cons_fst, runIds_cons_fst, ih]

theorem runIds_iid_le {α τ : Type} (ops : List (Op α)) (st : State α τ) :
    st.iid ≤ (runIds ops st).1.iid := by
  induction ops generalizing st with
  | nil => exact le_refl _
  | cons op ops ih =>
    rw [runIds_cons_fst]
    exact le_trans (applyOp_iid_le op st) (ih _)

theorem runIds_ids_lt {α τ : Type} (ops : List (Op α)) (st : State α τ) :
    ∀ x ∈ (runIds ops st).2, st.iid < x := by
  induction ops generalizing st with
  | nil => simp [runIds]
  | cons op ops ih =>
    intro x hx
    cases op with
    | pushFactory f =>
      simp only [runIds, List.mem_cons] at hx
      rcases hx with h | h
      · omega
      · have hrec := ih ((applyOp (.pushFactory f) st).1) x h
        have hiid : (applyOp (Op.pushFactory f) st).1.iid = st.iid + 1 := rfl
        omega
    | pushValue c =>
      have hrec := ih ((applyOp (.pushValue c) st).1) x (by simpa [runIds] using hx)
      exact hrec
    | dismissById id =>
      exact ih ((applyOp (.dismissById id) st).1) x (by simpa [runIds] using hx)
    | dismissLast =>
      exact ih ((applyOp .dismissLast st).1) x (by simpa [runIds] using hx)
    | dismissAll =>
      exact ih ((applyOp .dismissAll st).1) x (by simpa [runIds] using hx)

theorem runIds_pairwise {α τ : Type} (ops : List (Op α)) (st : State α τ) :
    ((runIds ops st).2).Pairwise (· < ·) := by
  induction ops generalizing st with
  | nil => simp [runIds]
  | cons op ops ih =>
    cases op with
    | pushFactory f =>
      simp only [runIds]
      rw [List.pairwise_cons]
      refine ⟨?_, ih _⟩
      intro b hb
      have hrec := runIds_ids_lt ops ((applyOp (.pushFactory f) st).1) b hb
      have hiid : (applyOp (Op.pushFactory f) st).1.iid = st.iid + 1 := rfl
      omega
    | pushValue c => simpa [runIds] using ih ((applyOp (.pushValue c) st).1)
    | dismissById id => simpa [runIds] using ih ((applyOp (.dismissById id) st).1)
    | dismissLast => simpa [runIds] using ih ((applyOp .dismissLast st).1)
    | dismissAll => simpa [runIds] using ih ((applyOp .dismissAll st).1)

theorem filter_ne_id_eq_self {α : Type} (l : List (Int × α)) (id : Int)
    (h : ∀ p ∈ l, p.1 ≠ id) : l.filter (fun it => it.1 != id) = l :=
  List.filter_eq_self.mpr fun a ha => by simpa [bne_iff_ne] using h a ha

theorem pushWithIdTry_ok {α τ ε : Type} (g : Int → α) (st : State α τ) :
    pushWithIdTry (fun i => (Except.ok (g i) : Except ε α)) st = (.ok (), pushWithId g st) :=
  rfl

/-! ## Claim theorems -/

/-- The registry state after two `Container` instances mount in order: the
first registers callback token `1` (its stored `subscription` is the new
array length, `1`), the second registers callback token `2`. The pair holds
the resulting state and the first container's `subscription`. -/
def mountTwo : State Nat Nat × Nat :=
  let m1 := containerMount 1 (initial : State Nat Nat)
  let m2 := containerMount 2 m1.1
  (m2.1, m1.2)

/-- The registry state after the first of the two mounted containers
unmounts: its cleanup runs `subscribers.splice(subscription - 1)`. -/
def afterUnmountFirst : State Nat Nat :=
  containerUnmount mountTwo.2 mountTwo.1

/-- C1 fails on the code: with two containers mounted (subscriber tokens
`[1, 2]`), unmounting the first runs `splice(0)`, which deletes every
subscriber from index 0 on — the second container's still-registered
callback included. The subscriber list becomes empty and a subsequent
mutation notifies nobody, though the claim requires token `2` to still be
invoked. -/
theorem unmount_drops_later_subscriber :
    mountTwo.1.subscribers = [1, 2] ∧
    afterUnmountFirst.subscribers = [] ∧
    (pushLast 5 afterUnmountFirst).2 = [] :=
  ⟨rfl, rfl, rfl⟩

/-- C2 counterexample: for the integer id `-1` (the sentinel tag) the claim
fails. On a registry holding the two sentinel-tagged items `(-1, 10)` and
`(-1, 20)`, `dismiss (-1)` removes both: the resulting components list is
empty, so its length is not the length of the original list minus one, as
removing exactly one item would give. -/
theorem dismissById_sentinel_not_single :
    (dismiss (some (-1)) (⟨-1, [(-1, 10), (-1, 20)], []⟩ : State Nat Nat)).1.components = [] ∧
    ¬ ((dismiss (some (-1)) (⟨-1, [(-1, 10), (-1, 20)], []⟩ : State Nat Nat)).1.components.length
        = [((-1 : Int), 10), ((-1 : Int), 20)].length - 1) :=
  ⟨by decide, by decide⟩

/-- C2 (amended): for every registry state and every id borne by exactly one
item of the list — which, by the uniqueness invariant, covers every id except
possibly the sentinel `-1` — `dismiss id` removes exactly that item and no
other, leaving the relative order of the remaining items unchanged (the
result is the untouched prefix followed by the untouched suffix); ids borne
by several items (possible only for the sentinel) have all their items
removed. -/
theorem dismissById_removes_unique {α τ : Type} (st : State α τ) (id : Int)
    (l1 l2 : List (Int × α)) (x : Int × α)
    (hc : st.components = l1 ++ x :: l2) (hx : x.1 = id)
    (h1 : ∀ y ∈ l1, y.1 ≠ id) (h2 : ∀ y ∈ l2, y.1 ≠ id) :
    (dismiss (some id) st).1.components = l1 ++ l2 ∧
    (dismiss (some id) st).2 = st.subscribers := by
  constructor
  · show (st.components.filter fun it => it.1 != id) = l1 ++ l2
    have e1 : l1.filter (fun it => it.1 != id) = l1 :=
      List.filter_eq_self.mpr fun a ha => by simpa [bne_iff_ne] using h1 a ha
    have e2 : l2.filter (fun it => it.1 != id) = l2 :=
      List.filter_eq_self.mpr fun a ha => by simpa [bne_iff_ne] using h2 a ha
    have ex : (x.1 != id) = false := by simp [hx]
    rw [hc, List.filter_append, List.filter_cons, ex]
    simp [e1, e2]
  · rfl

/-- C2 witness: on the registry `[(0, 10), (3, 11), (7, 12)]`, dismissing id
`3` yields `[(0, 10), (7, 12)]` and notifies the one subscriber. -/
theorem dismissById_removes_unique_w :
    (dismiss (some 3) (⟨7, [(0, 10), (3, 11), (7, 12)], [9]⟩ : State Nat Nat)).1.components
      = [((0 : Int), 10)] ++ [((7 : Int), 12)] ∧
    (dismiss (some 3) (⟨7, [(0, 10), (3, 11), (7, 12)], [9]⟩ : State Nat Nat)).2 = [9] :=
  dismissById_removes_unique _ 3 [(0, 10)] [(7, 12)] (3, 11) rfl rfl
    (by decide) (by decide)

/-- C3: over every sequence of operations on a registry started fresh, the
ids generated by the factory form of `push` are strictly increasing, hence no
two calls ever receive the same id even after intervening removals; and the
private counter never decreases across any prefix of the sequence. -/
theorem generated_ids_unique {α τ : Type} (ops l1 l2 : List (Op α)) :
    ((runIds ops (initial : State α τ)).2).Pairwise (· < ·) ∧
    ((runIds ops (initial : State α τ)).2).Nodup ∧
    (runIds l1 (initial : State α τ)).1.iid ≤ (runIds (l1 ++ l2) (initial : State α τ)).1.iid := by
  refine ⟨runIds_pairwise ops initial, ?_, ?_⟩
  · exact (runIds_pairwise ops initial).imp fun h => ne_of_lt h
  · rw [runIds_append_fst]
    exact runIds_iid_le l2 _

def scen1 : State String Nat × List Nat := push (.value "A") initial

def scen2 : State String Nat × List Nat := push (.factory fun id => "B" ++ toString id) scen1.1

def scen3 : State String Nat × List Nat := dismiss (some 0) scen2.1

def scen4 : State String Nat × List Nat := dismiss none scen3.1

/-- C4: the scenario from the spec. Starting empty, `push "A"` yields
`[(-1, "A")]`, then `push (fun id => "B" ++ id)` yields
`[(-1, "A"), (0, "B0")]` (the sentinel tag is `-1` and the first generated id
is `0`), then `dismiss 0` yields `[(-1, "A")]`, then `dismiss` with no id
yields `[]`. -/
theorem scenario_lists :
    scen1.1.components = [(-1, "A")] ∧
    scen2.1.components = [(-1, "A"), (0, "B0")] ∧
    scen3.1.components = [(-1, "A")] ∧
    scen4.1.components = [] :=
  ⟨rfl, rfl, by decide, rfl⟩

/-- C5: dismissing an id borne by no item leaves the whole registry state
unchanged (a silent no-op) while still notifying every registered subscriber
in registration order. -/
theorem dismiss_unknown_id_notifies {α τ : Type} (st : State α τ) (id : Int)
    (h : ∀ p ∈ st.components, p.1 ≠ id) :
    (dismiss (some id) st).1 = st ∧ (dismiss (some id) st).2 = st.subscribers := by
  constructor
  · show ({ st with components := st.components.filter fun it => it.1 != id } : State α τ) = st
    have e : st.components.filter (fun it => it.1 != id) = st.components :=
      List.filter_eq_self.mpr fun a ha => by simpa [bne_iff_ne] using h a ha
    rw [e]
  · rfl

/-- C5 witness: dismissing the absent id `5` from `[(-1, 7), (0, 8)]` leaves
the state unchanged and notifies both subscribers. -/
theorem dismiss_unknown_id_notifies_w :
    (dismiss (some 5) (⟨0, [(-1, 7), (0, 8)], [3, 4]⟩ : State Nat Nat)).1
      = (⟨0, [(-1, 7), (0, 8)], [3, 4]⟩ : State Nat Nat) ∧
    (dismiss (some 5) (⟨0, [(-1, 7), (0, 8)], [3, 4]⟩ : State Nat Nat)).2 = [3, 4] :=
  dismiss_unknown_id_notifies _ 5 (by decide)

/-- C6: `dismiss` with no id removes exactly the last item whatever its tag:
on an empty registry the whole state is unchanged (no error — the embedded
`slice(0, -1)` clamps to the empty list), and on a registry of shape
`xs ++ [x]` the result is exactly `xs`; subscribers are notified either
way. -/
theorem dismissLast_removes_last {α τ : Type} (st : State α τ) :
    (st.components = [] → (dismiss none st).1 = st) ∧
    (∀ xs x, st.components = xs ++ [x] → (dismiss none st).1.components = xs) ∧
    (dismiss none st).2 = st.subscribers := by
  refine ⟨?_, ?_, rfl⟩
  · intro h
    cases st with
    | mk iid comps subs =>
      simp only at h
      subst h
      rfl
  · intro xs x hc
    show jsSliceInit st.components = xs
    rw [jsSliceInit_eq_dropLast, hc, List.dropLast_concat]

/-- C6 witness: dismissing with no id on the empty registry leaves it
unchanged, and on `[(-1, 5), (0, 6)]` removes exactly `(0, 6)`. -/
theorem dismissLast_removes_last_w :
    (dismiss none (⟨0, [], [2]⟩ : State Nat Nat)).1 = (⟨0, [], [2]⟩ : State Nat Nat) ∧
    (dismiss none (⟨0, [((-1 : Int), 5), (0, 6)], [2]⟩ : State Nat Nat)).1.components
      = [((-1 : Int), 5)] :=
  ⟨(dismissLast_removes_last _).1 rfl,
   (dismissLast_removes_last _).2.1 [(-1, 5)] (0, 6) rfl⟩

/-- C7: every mutation operation (push of a value, push of a factory, dismiss
by id, dismiss last, dismiss all) notifies exactly the registered
subscribers: the notified token sequence equals the subscriber list, so each
registration fires exactly once and in registration order; the operation is a
pure function returning the fully updated state together with the completed
notification pass. -/
theorem mutation_notifies_once_in_order {α τ : Type} [DecidableEq τ]
    (op : Op α) (st : State α τ) :
    (applyOp op st).2 = st.subscribers ∧
    ∀ t : τ, (applyOp op st).2.count t = st.subscribers.count t := by
  have h := applyOp_notified op st
  exact ⟨h, fun t => by rw [h]⟩

/-- C8: the mutation surface never throws — each operation is embedded as a
total function because every JS primitive the source uses (array spread,
`filter`, `slice` with clamped bounds, `push`, `forEach`) is total — and the
two edge cases are defined no-ops: dismissing an unknown id leaves the
components unchanged, dismissing last on an empty registry leaves the state
unchanged; `push` and `dismissAll` always produce their defined result. -/
theorem mutations_never_throw {α τ : Type} (st st' : State α τ) (arg : PushArg α) (id : Int)
    (hid : ∀ p ∈ st.components, p.1 ≠ id) (hemp : st'.components = []) :
    (dismiss (some id) st).1.components = st.components ∧
    (dismiss none st').1 = st' ∧
    (push arg st).1.components.length = st.components.length + 1 ∧
    (dismissAll st).1.components = [] := by
  refine ⟨filter_ne_id_eq_self st.components id hid, ?_, ?_, rfl⟩
  · cases st' with
    | mk iid comps subs =>
      simp only at hemp
      subst hemp
      rfl
  · cases arg <;> simp [push, pushLast, pushWithId]

/-- C8 witness: dismissing the absent id `9` from `[(0, 1)]` changes nothing,
dismissing last on an empty registry changes nothing, pushing a value grows
the list by one, and `dismissAll` empties it. -/
theorem mutations_never_throw_w :
    (dismiss (some 9) (⟨0, [(0, 1)], [5]⟩ : State Nat Nat)).1.components
      = (⟨0, [(0, 1)], [5]⟩ : State Nat Nat).components ∧
    (dismiss none (⟨3, [], [6]⟩ : State Nat Nat)).1 = (⟨3, [], [6]⟩ : State Nat Nat) ∧
    (push (PushArg.value 4) (⟨0, [(0, 1)], [5]⟩ : State Nat Nat)).1.components.length
      = (⟨0, [(0, 1)], [5]⟩ : State Nat Nat).components.length + 1 ∧
    (dismissAll (⟨0, [(0, 1)], [5]⟩ : State Nat Nat)).1.components = [] :=
  mutations_never_throw _ _ (PushArg.value 4) 9 (by decide) rfl

/-- C9: mutating one of two independently constructed registries leaves the
other registry's whole state (item list, identity counter, subscriber list)
unchanged, notifies exactly the mutated registry's subscribers, and — when
the two registries' callback tokens are distinct, as distinct closures in the
source are — invokes none of the other registry's callbacks. -/
theorem registries_isolated {α τ : Type} (op : Op α) (w : World α τ)
    (hdisj : ∀ t ∈ w.reg2.subscribers, t ∉ w.reg1.subscribers) :
    (applyToFirst op w).1.reg2 = w.reg2 ∧
    (applyToFirst op w).2 = w.reg1.subscribers ∧
    ∀ t ∈ w.reg2.subscribers, t ∉ (applyToFirst op w).2 := by
  have h : (applyToFirst op w).2 = w.reg1.subscribers := applyOp_notified op w.reg1
  refine ⟨rfl, h, ?_⟩
  intro t ht
  rw [h]
  exact hdisj t ht

/-- C9 witness: pushing onto the first of two one-subscriber registries
notifies only token `1`; the second registry and its token `2` are
untouched. -/
theorem registries_isolated_w :
    (applyToFirst (Op.pushValue 3) (⟨⟨-1, [], [1]⟩, ⟨-1, [], [2]⟩⟩ : World Nat Nat)).1.reg2
      = (⟨-1, [], [2]⟩ : State Nat Nat) ∧
    (applyToFirst (Op.pushValue 3) (⟨⟨-1, [], [1]⟩, ⟨-1, [], [2]⟩⟩ : World Nat Nat)).2 = [1] ∧
    ∀ t ∈ (⟨-1, [], [2]⟩ : State Nat Nat).subscribers,
      t ∉ (applyToFirst (Op.pushValue 3) (⟨⟨-1, [], [1]⟩, ⟨-1, [], [2]⟩⟩ : World Nat Nat)).2 :=
  registries_isolated _ _ (by decide)

/-- C10: when the factory passed to the id-taking form of `push` throws, the
exception propagates, the components list and subscriber list are unchanged
and no subscriber is notified, but the counter was incremented by the
`++this.iid` that ran before the factory, so the failed call permanently
consumes one id. -/
theorem pushWithId_factory_throws {α τ ε : Type} (f : Int → Except ε α) (st : State α τ)
    (e : ε) (h : f (st.iid + 1) = .error e) :
    (pushWithIdTry f st).1 = .error e ∧
    (pushWithIdTry f st).2.1.components = st.components ∧
    (pushWithIdTry f st).2.1.subscribers = st.subscribers ∧
    (pushWithIdTry f st).2.2 = [] ∧
    (pushWithIdTry f st).2.1.iid = st.iid + 1 := by
  simp [pushWithIdTry, h]

/-- C10 witness: a factory that always throws error `0`, pushed onto the
fresh registry, propagates error `0`, leaves the components and subscribers
empty and notifies nobody, yet moves the counter from `-1` to `0`. -/
theorem pushWithId_factory_throws_w :
    (pushWithIdTry (fun _ => (Except.error 0 : Except Nat Nat)) (initial : State Nat Nat)).1
      = Except.error 0 ∧
    (pushWithIdTry (fun _ => (Except.error 0 : Except Nat Nat)) (initial : State Nat Nat)).2.1.components
      = (initial : State Nat Nat).components ∧
    (pushWithIdTry (fun _ => (Except.error 0 : Except Nat Nat)) (initial : State Nat Nat)).2.1.subscribers
      = (initial : State Nat Nat).subscribers ∧
    (pushWithIdTry (fun _ => (Except.error 0 : Except Nat Nat)) (initial : State Nat Nat)).2.2 = [] ∧
    (pushWithIdTry (fun _ => (Except.error 0 : Except Nat Nat)) (initial : State Nat Nat)).2.1.iid
      = (initial : State Nat Nat).iid + 1 :=
  pushWithId_factory_throws _ _ 0 rfl

end Overlay
